import Mathlib

/-!
Shallow embedding of the gov-scheme-qna server services, together with proofs
about the properties its specification states.

Conventions used throughout:
* JavaScript numbers that the code only ever adds, multiplies and compares are
  modelled as exact rationals (every JS float is a rational), so the
  combinatorial structure of each function (branching, filtering, sorting,
  truncating) is computable and decidable.
* The one place where the code takes a square root
  (`calculateCosineSimilarity`) is modelled over the reals, the usual exact
  idealisation of its floating-point arithmetic.
* Asynchronous provider calls (Azure translation / embeddings, MongoDB) are
  modelled by explicit oracle parameters; the value returned to the caller and
  the observable effects (whether a network call happened, which delays were
  slept, which update document was applied) are returned as data.
-/

set_option maxHeartbeats 1000000

namespace GovQnA

/-! ## semanticSearchService.js : data model

A document chunk as selected by `searchRelevantChunks`
(`.select('content metadata embedding schemeId chunkId')` plus the fields the
Mongo filter touches).  `metadata.qualityScore` is a number in the schema;
`embedding` is an array of numbers. -/

structure ChunkMetadata where
  qualityScore : ℚ
  language : String
  contentType : String
  deriving DecidableEq, Repr

structure ChunkDoc where
  chunkId : String
  content : String
  processingStatus : String
  schemeId : String
  metadata : ChunkMetadata
  embedding : List ℚ
  deriving DecidableEq, Repr

/-! ## semanticSearchService.js : calculateCosineSimilarity

The JS loop accumulates `dotProduct`, `normA`, `normB` over the two vectors
(which have equal length at that point); addition is commutative and the
values are exact rationals, so the accumulations are plain sums. -/

/-- Accumulated `dotProduct` of the loop in `calculateCosineSimilarity`. -/
def dotProduct : List ℚ → List ℚ → ℚ
  | a :: as, b :: bs => a * b + dotProduct as bs
  | _, _ => 0

/-- Accumulated `normA` (resp. `normB`) of the loop: the sum of squares. -/
def sumSq : List ℚ → ℚ
  | [] => 0
  | a :: as => a * a + sumSq as

/-- Model of `calculateCosineSimilarity(vectorA, vectorB)`.  The dimension
mismatch branch returns 0 (both the 1536-vs-768 case and the general case do);
`magnitude` is `Math.sqrt(normA) * Math.sqrt(normB)` and the final line is
`magnitude === 0 ? 0 : dotProduct / magnitude`, modelled over ℝ. -/
noncomputable def calculateCosineSimilarity (vectorA vectorB : List ℚ) : ℝ :=
  if vectorA.length ≠ vectorB.length then 0
  else if Real.sqrt (sumSq vectorA : ℝ) * Real.sqrt (sumSq vectorB : ℝ) = 0 then 0
  else (dotProduct vectorA vectorB : ℝ) /
    (Real.sqrt (sumSq vectorA : ℝ) * Real.sqrt (sumSq vectorB : ℝ))

lemma sumSq_nonneg (l : List ℚ) : 0 ≤ sumSq l := by
  induction l with
  | nil => simp [sumSq]
  | cons a as ih => have := mul_self_nonneg a; simp [sumSq]; nlinarith

lemma dotProduct_self (l : List ℚ) : dotProduct l l = sumSq l := by
  induction l with
  | nil => simp [dotProduct, sumSq]
  | cons a as ih => simp [dotProduct, sumSq, ih]

lemma sumSq_eq_zero_iff (l : List ℚ) : sumSq l = 0 ↔ ∀ x ∈ l, x = 0 := by
  induction l with
  | nil => simp [sumSq]
  | cons a as ih =>
    constructor
    · intro h
      have ha2 : 0 ≤ a * a := mul_self_nonneg a
      have has : 0 ≤ sumSq as := sumSq_nonneg as
      have ha : a * a = 0 := by simp [sumSq] at h; nlinarith
      have ha0 : a = 0 := by nlinarith
      have := ih.mp (by simp [sumSq] at h; nlinarith)
      intro x hx
      rcases List.mem_cons.mp hx with hx | hx
      · exact hx ▸ ha0
      · exact this x hx
    · intro h
      have ha0 : a = 0 := h a (List.mem_cons_self a as)
      have : sumSq as = 0 := ih.mpr fun x hx => h x (List.mem_cons_of_mem a hx)
      simp [sumSq, ha0, this]

/-- Cauchy–Schwarz for the accumulated sums, proved by induction along the
two lists. -/
lemma dotProduct_sq_le (a b : List ℚ) :
    dotProduct a b ^ 2 ≤ sumSq a * sumSq b := by
  induction a generalizing b with
  | nil => cases b <;> simp [dotProduct, sumSq]
  | cons x as ih =>
    cases b with
    | nil => simp [dotProduct, sumSq]
    | cons y bs =>
      have hd := ih bs
      have hA := sumSq_nonneg as
      have hB := sumSq_nonneg bs
      have key : 2 * (x * y) * dotProduct as bs ≤
          x ^ 2 * sumSq bs + y ^ 2 * sumSq as := by
        have hsq : (2 * (x * y) * dotProduct as bs) ^ 2 ≤
            (x ^ 2 * sumSq bs + y ^ 2 * sumSq as) ^ 2 := by
          nlinarith [sq_nonneg (x ^ 2 * sumSq bs - y ^ 2 * sumSq as),
            mul_le_mul_of_nonneg_left hd
              (by positivity : (0:ℚ) ≤ 4 * x ^ 2 * y ^ 2)]
        exact (abs_le_of_sq_le_sq' hsq (by positivity)).2
      simp only [dotProduct, sumSq]
      nlinarith [hd, key]

/-- When the two vectors have different lengths, the dimension-mismatch branch
returns 0. -/
lemma calculateCosineSimilarity_of_length_ne {a b : List ℚ}
    (h : a.length ≠ b.length) : calculateCosineSimilarity a b = 0 := by
  simp [calculateCosineSimilarity, h]

/-- When either vector has zero magnitude, the guard returns 0. -/
lemma calculateCosineSimilarity_of_zero {a b : List ℚ}
    (h : sumSq a = 0 ∨ sumSq b = 0) : calculateCosineSimilarity a b = 0 := by
  have hm : Real.sqrt (sumSq a : ℝ) * Real.sqrt (sumSq b : ℝ) = 0 := by
    rcases h with h | h <;> simp [h]
  unfold calculateCosineSimilarity
  by_cases hlen : a.length ≠ b.length
  · simp [hlen]
  · simp [hlen, hm]

/-- The returned score always lies in the interval from -1 to 1. -/
lemma calculateCosineSimilarity_mem_Icc (a b : List ℚ) :
    -1 ≤ calculateCosineSimilarity a b ∧ calculateCosineSimilarity a b ≤ 1 := by
  unfold calculateCosineSimilarity
  by_cases hlen : a.length ≠ b.length
  · simp [hlen]
  · rw [if_neg hlen]
    by_cases hm : Real.sqrt (sumSq a : ℝ) * Real.sqrt (sumSq b : ℝ) = 0
    · rw [if_pos hm]; norm_num
    · rw [if_neg hm]
      have hmnn : 0 ≤ Real.sqrt (sumSq a : ℝ) * Real.sqrt (sumSq b : ℝ) :=
        mul_nonneg (Real.sqrt_nonneg _) (Real.sqrt_nonneg _)
      have hmpos : 0 < Real.sqrt (sumSq a : ℝ) * Real.sqrt (sumSq b : ℝ) :=
        lt_of_le_of_ne hmnn (Ne.symm hm)
      have hAnn : (0:ℝ) ≤ (sumSq a : ℝ) := by exact_mod_cast sumSq_nonneg a
      have hBnn : (0:ℝ) ≤ (sumSq b : ℝ) := by exact_mod_cast sumSq_nonneg b
      have hmagsq : (Real.sqrt (sumSq a : ℝ) * Real.sqrt (sumSq b : ℝ)) ^ 2 =
          (sumSq a : ℝ) * (sumSq b : ℝ) := by
        rw [mul_pow, Real.sq_sqrt hAnn, Real.sq_sqrt hBnn]
      have hdotsq : ((dotProduct a b : ℚ) : ℝ) ^ 2 ≤
          (Real.sqrt (sumSq a : ℝ) * Real.sqrt (sumSq b : ℝ)) ^ 2 := by
        rw [hmagsq]
        exact_mod_cast dotProduct_sq_le a b
      have habs := abs_le_of_sq_le_sq' hdotsq hmnn
      constructor
      · rw [le_div_iff₀ hmpos]; linarith [habs.1]
      · rw [div_le_one hmpos]; exact habs.2

/-- A vector whose entries are not all zero has nonzero cosine similarity
magnitude with itself, and the similarity evaluates to exactly 1. -/
lemma calculateCosineSimilarity_self {v : List ℚ} (h : ∃ x ∈ v, x ≠ 0) :
    calculateCosineSimilarity v v = 1 := by
  have hS : sumSq v ≠ 0 := by
    intro h0
    rcases h with ⟨x, hx, hxne⟩
    exact hxne ((sumSq_eq_zero_iff v).mp h0 x hx)
  have hSpos : 0 < sumSq v := lt_of_le_of_ne (sumSq_nonneg v) (Ne.symm hS)
  have hSposR : (0:ℝ) < (sumSq v : ℝ) := by exact_mod_cast hSpos
  have hmag : Real.sqrt (sumSq v : ℝ) * Real.sqrt (sumSq v : ℝ) = (sumSq v : ℝ) :=
    Real.mul_self_sqrt (le_of_lt hSposR)
  unfold calculateCosineSimilarity
  rw [if_neg (by simp), if_neg (by rw [hmag]; exact ne_of_gt hSposR), hmag,
    dotProduct_self]
  exact div_self (ne_of_gt hSposR)

/-- C2: for equal-length vectors `calculateCosineSimilarity` lies in the
interval from -1 to 1; a vector that is not all zeros has similarity exactly 1
with itself; and whenever either argument has zero magnitude the function
returns exactly 0 (it is total: no error is raised). -/
theorem cosine_similarity_bounds_self_zero :
    (∀ a b : List ℚ, a.length = b.length →
      -1 ≤ calculateCosineSimilarity a b ∧ calculateCosineSimilarity a b ≤ 1)
    ∧ (∀ v : List ℚ, (∃ x ∈ v, x ≠ 0) → calculateCosineSimilarity v v = 1)
    ∧ (∀ a b : List ℚ, sumSq a = 0 ∨ sumSq b = 0 →
      calculateCosineSimilarity a b = 0) := by
  refine ⟨fun a b _ => calculateCosineSimilarity_mem_Icc a b,
    fun v hv => calculateCosineSimilarity_self hv,
    fun a b h => calculateCosineSimilarity_of_zero h⟩

/-- Witness for C2 at concrete inputs. -/
theorem cosine_similarity_bounds_self_zero_witness :
    (([1, 0] : List ℚ).length = ([0, 1] : List ℚ).length ∧
      -1 ≤ calculateCosineSimilarity [1, 0] [0, 1] ∧
      calculateCosineSimilarity [1, 0] [0, 1] ≤ 1)
    ∧ ((∃ x ∈ ([2] : List ℚ), x ≠ 0) ∧ calculateCosineSimilarity [2] [2] = 1)
    ∧ ((sumSq ([0] : List ℚ) = 0 ∨ sumSq ([3] : List ℚ) = 0) ∧
      calculateCosineSimilarity [0] [3] = 0) :=
  ⟨⟨by decide, cosine_similarity_bounds_self_zero.1 [1, 0] [0, 1] (by decide)⟩,
   ⟨⟨2, by simp, by norm_num⟩,
    cosine_similarity_bounds_self_zero.2.1 [2] ⟨2, by simp, by norm_num⟩⟩,
   ⟨Or.inl (by norm_num [sumSq]),
    cosine_similarity_bounds_self_zero.2.2 [0] [3]
      (Or.inl (by norm_num [sumSq]))⟩⟩

/-! ## semanticSearchService.js : searchRelevantChunks

The pipeline of steps 3-6: build the Mongo filter, fetch the matching chunks,
attach a similarity score to each, filter by `minSimilarityScore`, sort
descending by score and truncate to `topK`.  The similarity values are JS
numbers compared with `>=` and the comparator `b.similarityScore -
a.similarityScore`; the pipeline only uses their linear order, so it is stated
for any linearly ordered score type (instantiated at ℝ with
`calculateCosineSimilarity` for the dimension-mismatch claim and at ℚ for
executable witnesses). -/

structure ScoredChunk (α : Type) where
  doc : ChunkDoc
  similarityScore : α
  deriving DecidableEq, Repr

/-- The Mongo filter of step 3: `processingStatus` equal to `'completed'`,
`metadata.qualityScore` at least 0.5 (the `$gte` clause), and the optional
`schemeId`, `metadata.language`, `metadata.contentType` equality filters. -/
def dbFilterPred (schemeId language contentType : Option String)
    (c : ChunkDoc) : Bool :=
  decide (c.processingStatus = "completed") &&
  decide ((1 : ℚ)/2 ≤ c.metadata.qualityScore) &&
  (match schemeId with
   | none => true
   | some s => decide (c.schemeId = s)) &&
  (match language with
   | none => true
   | some l => decide (c.metadata.language = l)) &&
  (match contentType with
   | none => true
   | some t => decide (c.metadata.contentType = t))

/-- Step 5, `calculateSimilarityScores`: attach a similarity score to every
chunk.  (The JS loop also skips chunks whose `embedding` field is not an
array; in the typed model every chunk has a list embedding, so nothing is
skipped.) -/
def calculateSimilarityScores {α : Type} (scoreOf : ChunkDoc → α)
    (chunks : List ChunkDoc) : List (ScoredChunk α) :=
  chunks.map fun c => ⟨c, scoreOf c⟩

/-- Insert one scored chunk into a list that is already sorted in descending
score order. -/
def insertDesc {α : Type} [LinearOrder α] (x : ScoredChunk α) :
    List (ScoredChunk α) → List (ScoredChunk α)
  | [] => [x]
  | y :: ys =>
    if y.similarityScore < x.similarityScore then x :: y :: ys
    else y :: insertDesc x ys

/-- Model of `.sort((a, b) => b.similarityScore - a.similarityScore)`:
sort in descending order of `similarityScore`. -/
def sortByScoreDesc {α : Type} [LinearOrder α] :
    List (ScoredChunk α) → List (ScoredChunk α)
  | [] => []
  | x :: xs => insertDesc x (sortByScoreDesc xs)

/-- Steps 3-6 of `searchRelevantChunks`: fetch the chunks matching the filter,
score them, keep the ones with `similarityScore >= minSimilarityScore`, sort
descending by score and `.slice(0, topK)`. -/
def searchRelevantChunks (α : Type) [LinearOrder α] (scoreOf : ChunkDoc → α)
    (db : List ChunkDoc) (schemeId language contentType : Option String)
    (topK : ℕ) (minSimilarityScore : α) : List (ScoredChunk α) :=
  let chunks := db.filter (dbFilterPred schemeId language contentType)
  let chunksWithScores := calculateSimilarityScores scoreOf chunks
  (sortByScoreDesc (chunksWithScores.filter
      fun r => decide (minSimilarityScore ≤ r.similarityScore))).take topK

lemma mem_insertDesc {α : Type} [LinearOrder α] {x z : ScoredChunk α}
    {l : List (ScoredChunk α)} :
    z ∈ insertDesc x l ↔ z = x ∨ z ∈ l := by
  induction l with
  | nil => simp [insertDesc]
  | cons y ys ih =>
    by_cases h : y.similarityScore < x.similarityScore
    · simp [insertDesc, h]
    · simp [insertDesc, h, ih]
      tauto

lemma mem_sortByScoreDesc {α : Type} [LinearOrder α] {z : ScoredChunk α}
    {l : List (ScoredChunk α)} :
    z ∈ sortByScoreDesc l ↔ z ∈ l := by
  induction l with
  | nil => simp [sortByScoreDesc]
  | cons y ys ih => simp [sortByScoreDesc, mem_insertDesc, ih]

lemma length_insertDesc {α : Type} [LinearOrder α] (x : ScoredChunk α)
    (l : List (ScoredChunk α)) :
    (insertDesc x l).length = l.length + 1 := by
  induction l with
  | nil => simp [insertDesc]
  | cons y ys ih =>
    by_cases h : y.similarityScore < x.similarityScore
    · simp [insertDesc, h]
    · simp [insertDesc, h, ih]

lemma length_sortByScoreDesc {α : Type} [LinearOrder α]
    (l : List (ScoredChunk α)) :
    (sortByScoreDesc l).length = l.length := by
  induction l with
  | nil => rfl
  | cons y ys ih => simp [sortByScoreDesc, length_insertDesc, ih]

lemma pairwise_insertDesc {α : Type} [LinearOrder α] {x : ScoredChunk α}
    {l : List (ScoredChunk α)}
    (h : l.Pairwise fun p q => q.similarityScore ≤ p.similarityScore) :
    (insertDesc x l).Pairwise
      fun p q => q.similarityScore ≤ p.similarityScore := by
  induction l with
  | nil => simp [insertDesc]
  | cons y ys ih =>
    rcases List.pairwise_cons.mp h with ⟨hy, hys⟩
    by_cases hcmp : y.similarityScore < x.similarityScore
    · rw [insertDesc, if_pos hcmp]
      refine List.pairwise_cons.mpr ⟨?_, h⟩
      intro z hz
      rcases List.mem_cons.mp hz with hz | hz
      · exact hz ▸ le_of_lt hcmp
      · exact le_trans (hy z hz) (le_of_lt hcmp)
    · rw [insertDesc, if_neg hcmp]
      refine List.pairwise_cons.mpr ⟨?_, ih hys⟩
      intro z hz
      rcases mem_insertDesc.mp hz with hz | hz
      · exact hz ▸ le_of_not_lt hcmp
      · exact hy z hz

lemma pairwise_sortByScoreDesc {α : Type} [LinearOrder α]
    (l : List (ScoredChunk α)) :
    (sortByScoreDesc l).Pairwise
      fun p q => q.similarityScore ≤ p.similarityScore := by
  induction l with
  | nil => simp [sortByScoreDesc]
  | cons y ys ih => exact pairwise_insertDesc ih

/-- Anything in the search output came from the database, passed the Mongo
filter, carries the score that was computed for its chunk, and met the
similarity threshold. -/
lemma mem_searchRelevantChunks {α : Type} [LinearOrder α]
    {scoreOf : ChunkDoc → α} {db : List ChunkDoc}
    {schemeId language contentType : Option String} {topK : ℕ}
    {minSimilarityScore : α} {r : ScoredChunk α}
    (hr : r ∈ searchRelevantChunks α scoreOf db schemeId language contentType
      topK minSimilarityScore) :
    r.doc ∈ db ∧
    dbFilterPred schemeId language contentType r.doc = true ∧
    r.similarityScore = scoreOf r.doc ∧
    minSimilarityScore ≤ r.similarityScore := by
  unfold searchRelevantChunks at hr
  have hr1 := List.take_subset _ _ hr
  have hr2 := mem_sortByScoreDesc.mp hr1
  have hr3 := List.mem_filter.mp hr2
  have hthr : minSimilarityScore ≤ r.similarityScore :=
    of_decide_eq_true hr3.2
  rcases List.mem_map.mp hr3.1 with ⟨c, hc, hceq⟩
  have hcdb := List.mem_filter.mp hc
  subst hceq
  exact ⟨hcdb.1, hcdb.2, rfl, hthr⟩

/-- C1: every result of `searchRelevantChunks` has a similarity score at least
`minSimilarityScore`, the results are sorted in descending score order, there
are at most `topK` of them, and each result's chunk has
`processingStatus = 'completed'` and `metadata.qualityScore` at least 0.5 —
a chunk below that quality minimum is never returned. -/
theorem search_results_filtered_sorted_truncated_quality_gated
    (α : Type) [LinearOrder α] (scoreOf : ChunkDoc → α) (db : List ChunkDoc)
    (schemeId language contentType : Option String) (topK : ℕ)
    (minSimilarityScore : α) :
    (∀ r ∈ searchRelevantChunks α scoreOf db schemeId language contentType
        topK minSimilarityScore,
      minSimilarityScore ≤ r.similarityScore ∧
      r.doc.processingStatus = "completed" ∧
      (1 : ℚ)/2 ≤ r.doc.metadata.qualityScore) ∧
    (searchRelevantChunks α scoreOf db schemeId language contentType
        topK minSimilarityScore).Pairwise
      (fun p q => q.similarityScore ≤ p.similarityScore) ∧
    (searchRelevantChunks α scoreOf db schemeId language contentType
        topK minSimilarityScore).length ≤ topK := by
  refine ⟨?_, ?_, ?_⟩
  · intro r hr
    obtain ⟨-, hpred, -, hthr⟩ := mem_searchRelevantChunks hr
    unfold dbFilterPred at hpred
    simp only [Bool.and_eq_true, decide_eq_true_eq] at hpred
    exact ⟨hthr, hpred.1.1.1.1, hpred.1.1.1.2⟩
  · exact List.Pairwise.sublist (List.take_sublist _ _)
      (pairwise_sortByScoreDesc _)
  · simp only [searchRelevantChunks]
    exact List.length_take_le _ _

/-- Concrete chunk used by the executable witnesses. -/
def sampleChunk : ChunkDoc :=
  { chunkId := "chunk-1"
    content := "sample content"
    processingStatus := "completed"
    schemeId := "scheme-1"
    metadata := { qualityScore := 7/10, language := "en",
                  contentType := "paragraph" }
    embedding := [1] }

lemma sampleChunk_passes_filter :
    dbFilterPred none none none sampleChunk = true := by
  simp [dbFilterPred, sampleChunk]
  norm_num

lemma sampleChunk_mem_search :
    (⟨sampleChunk, (1 : ℕ)⟩ : ScoredChunk ℕ) ∈
      searchRelevantChunks ℕ (fun _ => 1) [sampleChunk] none none none 1 0 := by
  simp only [searchRelevantChunks, calculateSimilarityScores]
  rw [List.filter_cons_of_pos sampleChunk_passes_filter]
  simp [sortByScoreDesc, insertDesc]

/-- Witness for C1: one concrete search over a one-chunk database. -/
theorem search_results_filtered_sorted_truncated_quality_gated_witness :
    (⟨sampleChunk, (1 : ℕ)⟩ : ScoredChunk ℕ) ∈
      searchRelevantChunks ℕ (fun _ => 1) [sampleChunk] none none none 1 0 ∧
    ((0 : ℕ) ≤ (⟨sampleChunk, (1 : ℕ)⟩ : ScoredChunk ℕ).similarityScore ∧
      (⟨sampleChunk, (1 : ℕ)⟩ : ScoredChunk ℕ).doc.processingStatus =
        "completed" ∧
      (1 : ℚ)/2 ≤
        (⟨sampleChunk, (1 : ℕ)⟩ : ScoredChunk ℕ).doc.metadata.qualityScore) :=
  ⟨sampleChunk_mem_search,
   (search_results_filtered_sorted_truncated_quality_gated ℕ (fun _ => 1)
      [sampleChunk] none none none 1 0).1 ⟨sampleChunk, 1⟩
      sampleChunk_mem_search⟩

lemma length_filter_mono {β : Type} {p q : β → Bool}
    (h : ∀ x, p x = true → q x = true) (l : List β) :
    (l.filter p).length ≤ (l.filter q).length := by
  induction l with
  | nil => simp
  | cons x xs ih =>
    by_cases hx : p x = true
    · rw [List.filter_cons_of_pos hx, List.filter_cons_of_pos (h x hx)]
      simpa using ih
    · rw [List.filter_cons_of_neg hx]
      by_cases hq : q x = true
      · rw [List.filter_cons_of_pos hq]
        exact le_trans ih (by simp)
      · rw [List.filter_cons_of_neg hq]
        exact ih

/-- The number of results is `min topK` of the number of chunks that pass the
similarity filter. -/
lemma length_searchRelevantChunks {α : Type} [LinearOrder α]
    (scoreOf : ChunkDoc → α) (db : List ChunkDoc)
    (schemeId language contentType : Option String) (topK : ℕ)
    (minSimilarityScore : α) :
    (searchRelevantChunks α scoreOf db schemeId language contentType topK
        minSimilarityScore).length =
    min topK
      ((calculateSimilarityScores scoreOf
          (db.filter (dbFilterPred schemeId language contentType))).filter
        (fun r => decide (minSimilarityScore ≤ r.similarityScore))).length := by
  simp only [searchRelevantChunks]
  rw [List.length_take, length_sortByScoreDesc]

/-- C5: with the database, score function and all the other options fixed,
raising `minSimilarityScore` never increases the number of results of
`searchRelevantChunks`, and raising `topK` never decreases it. -/
theorem search_count_monotone (α : Type) [LinearOrder α]
    (scoreOf : ChunkDoc → α) (db : List ChunkDoc)
    (schemeId language contentType : Option String)
    (topK topK' : ℕ) (minSim minSim' : α)
    (hm : minSim ≤ minSim') (hk : topK ≤ topK') :
    (searchRelevantChunks α scoreOf db schemeId language contentType topK
        minSim').length ≤
      (searchRelevantChunks α scoreOf db schemeId language contentType topK
        minSim).length ∧
    (searchRelevantChunks α scoreOf db schemeId language contentType topK
        minSim).length ≤
      (searchRelevantChunks α scoreOf db schemeId language contentType topK'
        minSim).length := by
  constructor
  · rw [length_searchRelevantChunks, length_searchRelevantChunks]
    refine min_le_min le_rfl (length_filter_mono ?_ _)
    intro r hr
    have := of_decide_eq_true hr
    exact decide_eq_true (le_trans hm this)
  · rw [length_searchRelevantChunks, length_searchRelevantChunks]
    exact min_le_min hk le_rfl

/-- Witness for C5 at a concrete instance of the two hypotheses. -/
theorem search_count_monotone_witness :
    (0 : ℕ) ≤ 1 ∧ (1 : ℕ) ≤ 2 ∧
    ((searchRelevantChunks ℕ (fun _ => 1) [sampleChunk] none none none 1
        1).length ≤
      (searchRelevantChunks ℕ (fun _ => 1) [sampleChunk] none none none 1
        0).length ∧
    (searchRelevantChunks ℕ (fun _ => 1) [sampleChunk] none none none 1
        0).length ≤
      (searchRelevantChunks ℕ (fun _ => 1) [sampleChunk] none none none 2
        0).length) :=
  ⟨by decide, by decide,
   search_count_monotone ℕ (fun _ => 1) [sampleChunk] none none none 1 2 0 1
     (by decide) (by decide)⟩

/-- C8: a chunk whose stored embedding has a different dimension from the
query embedding scores exactly 0, and under a positive
`minSimilarityScore` threshold no result of the cosine-scored search pipeline
is that chunk: it is silently excluded instead of raising. -/
theorem dimension_mismatch_scores_zero_and_excluded
    (queryEmbedding : List ℚ) (db : List ChunkDoc)
    (schemeId language contentType : Option String) (topK : ℕ)
    (minSimilarityScore : ℝ) (c : ChunkDoc)
    (hdim : queryEmbedding.length ≠ c.embedding.length)
    (hpos : 0 < minSimilarityScore) :
    calculateCosineSimilarity queryEmbedding c.embedding = 0 ∧
    (searchRelevantChunks ℝ
        (fun ch => calculateCosineSimilarity queryEmbedding ch.embedding)
        db schemeId language contentType topK minSimilarityScore).filter
      (fun r => decide (r.doc = c)) = [] := by
  have hzero : calculateCosineSimilarity queryEmbedding c.embedding = 0 :=
    calculateCosineSimilarity_of_length_ne hdim
  refine ⟨hzero, List.filter_eq_nil_iff.mpr ?_⟩
  intro r hr
  obtain ⟨-, -, hscore, hthr⟩ := mem_searchRelevantChunks hr
  intro hrc
  have hrc' : r.doc = c := of_decide_eq_true hrc
  rw [hscore, hrc', hzero] at hthr
  exact absurd hthr (not_le.mpr hpos)

/-- Witness for C8: a stored 1-dimensional embedding against a 2-dimensional
query, with threshold one half. -/
theorem dimension_mismatch_scores_zero_and_excluded_witness :
    ([1, 2] : List ℚ).length ≠ sampleChunk.embedding.length ∧
    (0 : ℝ) < 1/2 ∧
    (calculateCosineSimilarity [1, 2] sampleChunk.embedding = 0 ∧
      (searchRelevantChunks ℝ
          (fun ch => calculateCosineSimilarity [1, 2] ch.embedding)
          [sampleChunk] none none none 5 (1/2)).filter
        (fun r => decide (r.doc = sampleChunk)) = []) :=
  ⟨by simp [sampleChunk], by norm_num,
   dimension_mismatch_scores_zero_and_excluded [1, 2] [sampleChunk] none none
     none 5 (1/2) sampleChunk (by simp [sampleChunk]) (by norm_num)⟩

/-! ## semanticSearchService.js : updateUsageStatistics

The update passed to `findByIdAndUpdate` is a JavaScript object literal
containing the keys `$inc`, `$set`, `$set`.  Object-literal semantics keep a
duplicate key at its first position but overwrite its value, so the built
document has only the second `$set` (the `avgRelevanceScore` one); the
`lastRetrievedAt` assignment is silently dropped.  The model builds the
document with exactly those object semantics and then applies it. -/

structure UsageStats where
  retrievalCount : ℕ
  lastRetrievedAt : Option ℕ
  avgRelevanceScore : ℚ
  deriving DecidableEq, Repr

/-- Model of `calculateRunningAverage(currentAverage, currentCount,
newValue)`. -/
def calculateRunningAverage (currentAverage : ℚ) (currentCount : ℕ)
    (newValue : ℚ) : ℚ :=
  if currentCount = 0 then newValue
  else (currentAverage * currentCount + newValue) / (currentCount + 1)

/-- A single-field Mongo update operator, as used in this update document. -/
inductive MongoOp
  | incRetrievalCount (amount : ℕ)
  | setLastRetrievedAt (t : ℕ)
  | setAvgRelevanceScore (v : ℚ)
  deriving DecidableEq, Repr

/-- Adding one key to a JS object: a duplicate key keeps its original
position but its value is overwritten. -/
def jsObjectSet (obj : List (String × MongoOp)) (k : String) (v : MongoOp) :
    List (String × MongoOp) :=
  if obj.any (fun p => p.1 == k) then
    obj.map (fun p => if p.1 == k then (k, v) else p)
  else obj ++ [(k, v)]

/-- A JS object literal: its entries are added left to right. -/
def jsObject (fields : List (String × MongoOp)) : List (String × MongoOp) :=
  fields.foldl (fun acc p => jsObjectSet acc p.1 p.2) []

/-- The update document built in `updateUsageStatistics` for one chunk:
an object literal whose keys are `$inc`, `$set` (lastRetrievedAt := now) and
`$set` (avgRelevanceScore := running average). -/
def usageUpdateDoc (now : ℕ) (chunkStats : UsageStats)
    (similarityScore : ℚ) : List (String × MongoOp) :=
  jsObject
    [("$inc", MongoOp.incRetrievalCount 1),
     ("$set", MongoOp.setLastRetrievedAt now),
     ("$set", MongoOp.setAvgRelevanceScore
        (calculateRunningAverage chunkStats.avgRelevanceScore
          chunkStats.retrievalCount similarityScore))]

def applyMongoOp (s : UsageStats) : MongoOp → UsageStats
  | .incRetrievalCount n => { s with retrievalCount := s.retrievalCount + n }
  | .setLastRetrievedAt t => { s with lastRetrievedAt := some t }
  | .setAvgRelevanceScore v => { s with avgRelevanceScore := v }

def applyUpdateDoc (doc : List (String × MongoOp)) (s : UsageStats) :
    UsageStats :=
  doc.foldl (fun st p => applyMongoOp st p.2) s

/-- Model of `findByIdAndUpdate(chunk._id, ...)` for one retrieved
chunk with stats `stats` and relevance `similarityScore` at time `now`. -/
def updateUsageStatistics (now : ℕ) (stats : UsageStats)
    (similarityScore : ℚ) : UsageStats :=
  applyUpdateDoc (usageUpdateDoc now stats similarityScore) stats

/-- What the update actually does: increment the count, recompute the running
average, and leave `lastRetrievedAt` unchanged (the duplicate `$set` key
dropped that field). -/
lemma updateUsageStatistics_eq (now : ℕ) (stats : UsageStats)
    (similarityScore : ℚ) :
    updateUsageStatistics now stats similarityScore =
      { retrievalCount := stats.retrievalCount + 1
        lastRetrievedAt := stats.lastRetrievedAt
        avgRelevanceScore := calculateRunningAverage stats.avgRelevanceScore
          stats.retrievalCount similarityScore } := by
  rfl

/-- C9, evaluated at the failing input: for a chunk with
`retrievalCount = 2`, `avgRelevanceScore = 1/2`, `lastRetrievedAt = 5` and a
new score of `4/5` at time 99, the code increments the count to 3 and sets
the running average to `(1/2 * 2 + 4/5) / 3 = 3/5` as claimed, but leaves
`lastRetrievedAt` at 5 — it is never set to the current time, because the
duplicate `$set` key in the object literal overwrote that field. -/
theorem updateUsageStatistics_drops_lastRetrievedAt :
    updateUsageStatistics 99
        { retrievalCount := 2, lastRetrievedAt := some 5,
          avgRelevanceScore := 1/2 } (4/5) =
      { retrievalCount := 3, lastRetrievedAt := some 5,
        avgRelevanceScore := 3/5 } ∧
    (updateUsageStatistics 99
        { retrievalCount := 2, lastRetrievedAt := some 5,
          avgRelevanceScore := 1/2 } (4/5)).lastRetrievedAt ≠ some 99 := by
  rw [updateUsageStatistics_eq]
  refine ⟨?_, by simp⟩
  have : calculateRunningAverage (1/2) 2 (4/5) = 3/5 := by
    norm_num [calculateRunningAverage]
  rw [this]

/-! ## translationService.js : translateText

The provider is the Azure axios call: it gets the (possibly truncated) text
and the two language codes and returns `some translated` when the response
parses, `none` when the response format is unexpected or the request throws
(both of which make the function fall back to the text it would have sent).
The second component of the result records whether a provider call was made. -/

def maxTextLength : ℕ := 50000

def translateText (apiKeyPresent : Bool)
    (provider : String → String → String → Option String)
    (text fromLang toLang : String) : String × Bool :=
  if !apiKeyPresent then (text, false)
  else if text.trim.length = 0 then (text, false)
  else if fromLang = toLang then (text, false)
  else
    let textToSend := if maxTextLength < text.length
      then text.take maxTextLength else text
    match provider textToSend fromLang toLang with
    | some translated => (translated, true)
    | none => (textToSend, true)

/-- C6: translating with source language equal to target language returns the
text unchanged and performs no provider call, for every text, every provider
and whether or not an API key is configured. -/
theorem translateText_identity_when_same_language
    (apiKeyPresent : Bool)
    (provider : String → String → String → Option String)
    (text lang : String) :
    translateText apiKeyPresent provider text lang lang = (text, false) := by
  cases apiKeyPresent with
  | false => rfl
  | true =>
    by_cases h : text.trim.length = 0 <;>
      simp [translateText, h]

/-! ## azureEmbeddingService.js : generateEmbeddings

The `for (let attempt = 1; attempt <= maxRetries; attempt++)` loop is driven
by an oracle giving the outcome of each attempt.  `remaining` counts the loop
iterations still allowed (`maxRetries - attempt + 1`); when it reaches 0 the
loop exits and the async function resolves with `undefined`.  The result
carries the list of backoff delays slept (in ms) and the number of attempts
made. -/

inductive AttemptOutcome
  | success
  | rateLimit
  | serverError
  | otherError
  deriving DecidableEq, Repr

inductive JsResult
  | resolved
  | rejected
  | resolvedUndefined
  deriving DecidableEq, Repr

def generateEmbeddingsLoop (oracle : ℕ → AttemptOutcome) (maxRetries : ℕ) :
    ℕ → ℕ → JsResult × List ℕ × ℕ
  | 0, _ => (JsResult.resolvedUndefined, [], 0)
  | remaining + 1, attempt =>
    match oracle attempt with
    | .success => (JsResult.resolved, [], 1)
    | .rateLimit =>
      let waitTime := 2 ^ attempt * 2000
      let r := generateEmbeddingsLoop oracle maxRetries remaining (attempt + 1)
      (r.1, waitTime :: r.2.1, r.2.2 + 1)
    | .serverError =>
      let waitTime := 2 ^ attempt * 1000
      let r := generateEmbeddingsLoop oracle maxRetries remaining (attempt + 1)
      (r.1, waitTime :: r.2.1, r.2.2 + 1)
    | .otherError =>
      if attempt < maxRetries then
        let r := generateEmbeddingsLoop oracle maxRetries remaining
          (attempt + 1)
        (r.1, 1000 :: r.2.1, r.2.2 + 1)
      else (JsResult.rejected, [], 1)

def generateEmbeddings (oracle : ℕ → AttemptOutcome)
    (textChunks : List String) (maxRetries : ℕ := 3) :
    JsResult × List ℕ × ℕ :=
  if textChunks.isEmpty then (JsResult.rejected, [], 0)
  else generateEmbeddingsLoop oracle maxRetries maxRetries 1

/-- The loop makes at most `remaining` attempts (so the call makes at most
`maxRetries` attempts). -/
lemma generateEmbeddingsLoop_attempts_le (oracle : ℕ → AttemptOutcome)
    (maxRetries : ℕ) :
    ∀ remaining attempt,
      (generateEmbeddingsLoop oracle maxRetries remaining attempt).2.2 ≤
        remaining := by
  intro remaining
  induction remaining with
  | zero => intro attempt; simp [generateEmbeddingsLoop]
  | succ n ih =>
    intro attempt
    rw [generateEmbeddingsLoop]
    cases oracle attempt with
    | success => simp
    | rateLimit => simpa using ih (attempt + 1)
    | serverError => simpa using ih (attempt + 1)
    | otherError =>
      by_cases h : attempt < maxRetries
      · simp only [h, if_true]
        simpa using ih (attempt + 1)
      · simp [h]

/-- C7, evaluated at the failing input: with a nonempty chunk list and a
provider that answers HTTP 429 on every attempt, the code makes exactly 3
attempts with the documented exponential backoff (4s, 8s, 16s, doubling per
attempt), but then the loop exits and the promise resolves with `undefined`
instead of throwing. -/
theorem generateEmbeddings_429_exhaustion_resolves_undefined :
    generateEmbeddings (fun _ => AttemptOutcome.rateLimit) ["doc"] 3 =
      (JsResult.resolvedUndefined, [4000, 8000, 16000], 3) ∧
    (generateEmbeddings (fun _ => AttemptOutcome.rateLimit) ["doc"] 3).1 ≠
      JsResult.rejected := by
  constructor <;> decide

/-! ## aiService.js : calculateConfidence

All the function reads from each context entry is `ctx.text.length`, so the
context is modelled as the list of those lengths.  `Math.round` on the
non-negative numbers occurring here is `⌊x + 1/2⌋`. -/

def jsRound (x : ℚ) : ℤ := ⌊x + 1/2⌋

def calculateConfidence (context : List ℕ) : ℚ :=
  if context.length = 0 then 0
  else
    (jsRound (min (9/10)
        (((context.sum : ℚ) / context.length) / 1000 * (3/10) +
          (context.length : ℚ) / 5 * (7/10)) * 100) : ℚ) / 100

/-- C10: `calculateConfidence` is 0 on an empty context and always lies in
the interval from 0 to 0.9 — after the cap at 0.9 and rounding to two
decimals a non-fallback confidence never reaches 1.0. -/
theorem calculateConfidence_bounds :
    calculateConfidence [] = 0 ∧
    ∀ context : List ℕ, 0 ≤ calculateConfidence context ∧
      calculateConfidence context ≤ 9/10 := by
  refine ⟨rfl, fun context => ?_⟩
  unfold calculateConfidence
  by_cases h : context.length = 0
  · rw [if_pos h]; norm_num
  · rw [if_neg h]
    have hlen : (0:ℚ) < (context.length : ℚ) := by
      have : 0 < context.length := Nat.pos_of_ne_zero h
      exact_mod_cast this
    have hsum : (0:ℚ) ≤ (context.sum : ℚ) := by positivity
    set E : ℚ := ((context.sum : ℚ) / context.length) / 1000 * (3/10) +
      (context.length : ℚ) / 5 * (7/10) with hE
    have hEnn : 0 ≤ E := by
      rw [hE]; positivity
    have hconf_lb : 0 ≤ min (9/10 : ℚ) E := le_min (by norm_num) hEnn
    have hconf_ub : min (9/10 : ℚ) E ≤ 9/10 := min_le_left _ _
    have hfloor_lb : (0:ℤ) ≤ jsRound (min (9/10 : ℚ) E * 100) := by
      rw [jsRound, Int.le_floor]
      push_cast
      nlinarith
    have hfloor_ub : jsRound (min (9/10 : ℚ) E * 100) ≤ 90 := by
      rw [jsRound]
      have : min (9/10 : ℚ) E * 100 + 1/2 ≤ 181/2 := by nlinarith
      calc ⌊min (9/10 : ℚ) E * 100 + 1/2⌋ ≤ ⌊(181/2 : ℚ)⌋ :=
            Int.floor_le_floor this
        _ = 90 := by norm_num
    constructor
    · have : (0:ℚ) ≤ (jsRound (min (9/10 : ℚ) E * 100) : ℚ) := by
        exact_mod_cast hfloor_lb
      positivity
    · rw [div_le_iff₀ (by norm_num : (0:ℚ) < 100)]
      have : ((jsRound (min (9/10 : ℚ) E * 100) : ℤ) : ℚ) ≤ 90 := by
        exact_mod_cast hfloor_ub
      linarith

/-! ## textPreprocessingService.js : splitIntoChunks

`splitIntoChunks(text, words, options)` walks the word array with a cursor.
The word tokenizer (`natural.WordTokenizer`, an external library) is an
oracle parameter `tok`; it is only consulted inside the sentence-boundary
adjustment.  The chunk metadata modelled is the part the split computes
itself (`section`, `chunkIndex`, `wordCount`, `charCount` and the content);
the constant `language`/`contentType`/`level` copies are omitted.
`while (startIndex < words.length)` is modelled with a fuel argument large
enough for every run in which the cursor advances (which claim C4 shows is
every run with `overlap < chunkSize`; a run with `chunkSize <= overlap` can
loop forever in JS, where the model instead stops when the fuel is spent).
The comparison `lastSentenceEnd > chunkText.length * 0.7` is exact float
arithmetic on both sides, so it is embedded as the integer comparison
`7 * length < 10 * lastSentenceEnd` (the same inequality scaled by 10;
`sentence_boundary_condition_eq` below proves the two forms equivalent). -/

structure TextChunk where
  content : String
  sectionTitle : String
  chunkIndex : ℕ
  wordCount : ℕ
  charCount : ℕ
  deriving DecidableEq, Repr

/-- Index of the last occurrence of `c`, or -1: `String.lastIndexOf`. -/
def lastIndexOfAux (c : Char) : List Char → Int
  | [] => -1
  | x :: xs =>
    let r := lastIndexOfAux c xs
    if r = -1 then (if x = c then 0 else -1) else r + 1

def jsLastIndexOf (s : String) (c : Char) : Int :=
  lastIndexOfAux c s.data

/-- JS `String.prototype.trim`: strip whitespace from both ends. -/
def jsTrim (s : String) : String :=
  ⟨((s.data.dropWhile Char.isWhitespace).reverse.dropWhile
      Char.isWhitespace).reverse⟩

lemma sentence_boundary_condition_eq (n : ℕ) (l : ℤ) :
    (7 * (n : ℤ) < 10 * l) ↔ ((n : ℚ) * (7/10) < (l : ℚ)) := by
  constructor <;> intro h
  · have h' : (7:ℚ) * n < 10 * l := by exact_mod_cast h
    linarith
  · have h' : (7:ℚ) * n < 10 * l := by linarith
    exact_mod_cast h'

/-- One iteration's final `endIndex`: start from
`min(startIndex + chunkSize, words.length)`, build the candidate chunk text,
and if its last period sits beyond 70 percent of the text, re-tokenize the
prefix up to the period and move `endIndex` to
`startIndex + adjustedWords.length` provided that keeps at least
`minChunkSize` words. -/
def splitStepEndIndex (tok : String → List String) (words : List String)
    (chunkSize minChunkSize : ℕ) (startIndex : ℕ) : ℕ :=
  let endIndex := min (startIndex + chunkSize) words.length
  let chunkWords := (words.drop startIndex).take (endIndex - startIndex)
  let chunkText := String.intercalate " " chunkWords
  let lastSentenceEnd := jsLastIndexOf chunkText '.'
  if 7 * (chunkText.length : ℤ) < 10 * lastSentenceEnd then
    let adjustedWords := tok (chunkText.take (lastSentenceEnd.toNat + 1))
    if minChunkSize ≤ adjustedWords.length then
      startIndex + adjustedWords.length
    else endIndex
  else endIndex

/-- The cursor update `startIndex = Math.max(startIndex + chunkSize -
overlap, endIndex)`.  (Over ℕ the subtraction is truncated; it agrees with
the JS integer value whenever `overlap ≤ startIndex + chunkSize`, in
particular whenever `overlap < chunkSize`.) -/
def nextStartIndex (tok : String → List String) (words : List String)
    (chunkSize overlap minChunkSize : ℕ) (startIndex : ℕ) : ℕ :=
  max (startIndex + chunkSize - overlap)
    (splitStepEndIndex tok words chunkSize minChunkSize startIndex)

/-- The `while (startIndex < words.length)` loop, by fuel. -/
def splitLoop (tok : String → List String) (words : List String)
    (chunkSize overlap minChunkSize : ℕ) (sectionTitle : String) :
    ℕ → ℕ → ℕ → List TextChunk
  | 0, _, _ => []
  | fuel + 1, startIndex, chunkIndex =>
    if startIndex < words.length then
      let endIndex := splitStepEndIndex tok words chunkSize minChunkSize
        startIndex
      let finalChunkWords := (words.drop startIndex).take
        (endIndex - startIndex)
      let finalChunkText := String.intercalate " " finalChunkWords
      if 0 < (jsTrim finalChunkText).length then
        { content := finalChunkText, sectionTitle := sectionTitle,
          chunkIndex := chunkIndex, wordCount := finalChunkWords.length,
          charCount := finalChunkText.length } ::
        splitLoop tok words chunkSize overlap minChunkSize sectionTitle fuel
          (nextStartIndex tok words chunkSize overlap minChunkSize startIndex)
          (chunkIndex + 1)
      else
        splitLoop tok words chunkSize overlap minChunkSize sectionTitle fuel
          (nextStartIndex tok words chunkSize overlap minChunkSize startIndex)
          chunkIndex
    else []

def splitIntoChunks (tok : String → List String) (words : List String)
    (chunkSize overlap minChunkSize : ℕ) (sectionTitle : String)
    (baseIndex : ℕ) : List TextChunk :=
  splitLoop tok words chunkSize overlap minChunkSize sectionTitle
    (words.length + 1) 0 baseIndex

/-- The next chunk starts at or after the current chunk's `endIndex`: the
`Math.max` with `endIndex` means consecutive chunks can never share a word. -/
lemma endIndex_le_nextStartIndex (tok : String → List String)
    (words : List String) (chunkSize overlap minChunkSize startIndex : ℕ) :
    splitStepEndIndex tok words chunkSize minChunkSize startIndex ≤
      nextStartIndex tok words chunkSize overlap minChunkSize startIndex :=
  le_max_right _ _

lemma le_nextStartIndex (tok : String → List String) (words : List String)
    (chunkSize overlap minChunkSize startIndex : ℕ)
    (hov : overlap ≤ chunkSize) :
    startIndex + (chunkSize - overlap) ≤
      nextStartIndex tok words chunkSize overlap minChunkSize startIndex := by
  have h := le_max_left (startIndex + chunkSize - overlap)
    (splitStepEndIndex tok words chunkSize minChunkSize startIndex)
  unfold nextStartIndex
  omega

/-- Once the fuel exceeds the number of words left of the cursor, the loop's
result no longer depends on the fuel: the while loop terminates. -/
lemma splitLoop_fuel_congr (tok : String → List String) (words : List String)
    (chunkSize overlap minChunkSize : ℕ) (sectionTitle : String)
    (hov : overlap < chunkSize) :
    ∀ n f₁ f₂ startIndex chunkIndex, words.length - startIndex ≤ n →
      words.length - startIndex < f₁ → words.length - startIndex < f₂ →
      splitLoop tok words chunkSize overlap minChunkSize sectionTitle f₁
          startIndex chunkIndex =
        splitLoop tok words chunkSize overlap minChunkSize sectionTitle f₂
          startIndex chunkIndex := by
  intro n
  induction n with
  | zero =>
    intro f₁ f₂ s ci hn h₁ h₂
    obtain ⟨m₁, rfl⟩ : ∃ m, f₁ = m + 1 := ⟨f₁ - 1, by omega⟩
    obtain ⟨m₂, rfl⟩ : ∃ m, f₂ = m + 1 := ⟨f₂ - 1, by omega⟩
    have hs : ¬ s < words.length := by omega
    rw [splitLoop, splitLoop, if_neg hs, if_neg hs]
  | succ n ih =>
    intro f₁ f₂ s ci hn h₁ h₂
    obtain ⟨m₁, rfl⟩ : ∃ m, f₁ = m + 1 := ⟨f₁ - 1, by omega⟩
    obtain ⟨m₂, rfl⟩ : ∃ m, f₂ = m + 1 := ⟨f₂ - 1, by omega⟩
    by_cases hs : s < words.length
    · have hadv := le_nextStartIndex tok words chunkSize overlap minChunkSize s
        hov.le
      have hnext : s + 1 ≤
          nextStartIndex tok words chunkSize overlap minChunkSize s := by
        omega
      have hrec : words.length -
          nextStartIndex tok words chunkSize overlap minChunkSize s ≤ n := by
        omega
      have hrec₁ : words.length -
          nextStartIndex tok words chunkSize overlap minChunkSize s < m₁ := by
        omega
      have hrec₂ : words.length -
          nextStartIndex tok words chunkSize overlap minChunkSize s < m₂ := by
        omega
      rw [splitLoop, splitLoop, if_pos hs, if_pos hs]
      by_cases ht : 0 < (jsTrim (String.intercalate " "
          ((words.drop s).take
            (splitStepEndIndex tok words chunkSize minChunkSize s - s)))).length
      · simp only [if_pos ht]
        rw [ih m₁ m₂ _ _ hrec hrec₁ hrec₂]
      · simp only [if_neg ht]
        exact ih m₁ m₂ _ _ hrec hrec₁ hrec₂
    · rw [splitLoop, splitLoop, if_neg hs, if_neg hs]

/-- C4: whenever `overlap < chunkSize`, the cursor advances by at least
`chunkSize - overlap` words on every iteration — even when the
sentence-boundary adjustment did not move the window end forward — and
consequently the loop terminates: its result is the same for every
sufficient fuel bound. -/
theorem splitIntoChunks_progress_and_termination
    (tok : String → List String) (words : List String)
    (chunkSize overlap minChunkSize : ℕ) (sectionTitle : String)
    (hov : overlap < chunkSize) :
    (∀ startIndex, startIndex + (chunkSize - overlap) ≤
      nextStartIndex tok words chunkSize overlap minChunkSize startIndex) ∧
    (∀ f₁ f₂ startIndex chunkIndex,
      words.length - startIndex < f₁ → words.length - startIndex < f₂ →
      splitLoop tok words chunkSize overlap minChunkSize sectionTitle f₁
          startIndex chunkIndex =
        splitLoop tok words chunkSize overlap minChunkSize sectionTitle f₂
          startIndex chunkIndex) :=
  ⟨fun startIndex =>
    le_nextStartIndex tok words chunkSize overlap minChunkSize startIndex
      hov.le,
   fun f₁ f₂ startIndex chunkIndex h₁ h₂ =>
    splitLoop_fuel_congr tok words chunkSize overlap minChunkSize sectionTitle
      hov (words.length - startIndex) f₁ f₂ startIndex chunkIndex le_rfl h₁ h₂⟩

/-- Witness for C4 on a concrete three-word section with chunk size 2 and
overlap 1. -/
theorem splitIntoChunks_progress_and_termination_witness :
    (1 : ℕ) < 2 ∧
    ((3 : ℕ) - 0 < 4 ∧ (3 : ℕ) - 0 < 7) ∧
    0 + (2 - 1) ≤
      nextStartIndex (fun s => [s]) ["a", "b", "c"] 2 1 1 0 ∧
    splitLoop (fun s => [s]) ["a", "b", "c"] 2 1 1 "" 4 0 0 =
      splitLoop (fun s => [s]) ["a", "b", "c"] 2 1 1 "" 7 0 0 :=
  ⟨by decide, ⟨by decide, by decide⟩,
   (splitIntoChunks_progress_and_termination (fun s => [s]) ["a", "b", "c"]
      2 1 1 "" (by decide)).1 0,
   (splitIntoChunks_progress_and_termination (fun s => [s]) ["a", "b", "c"]
      2 1 1 "" (by decide)).2 4 7 0 0 (by decide) (by decide)⟩

/-- C3, evaluated at a failing input: one oversized eight-word section split
with `chunkSize = 4`, `overlap = 2`, `minChunkSize = 1` produces the two
consecutive chunks `"a b c d"` and `"e f g h"` — but the trailing
2-word window of the first chunk, `["c", "d"]`, is not the leading words
`["e", "f"]` of the second: `Math.max(startIndex + chunkSize - overlap,
endIndex)` moves the cursor to `endIndex`, so the promised overlap never
appears. -/
theorem splitIntoChunks_counterexample_no_overlap :
    (splitIntoChunks (fun s => [s]) ["a", "b", "c", "d", "e", "f", "g", "h"]
        4 2 1 "" 0).map TextChunk.content =
      [String.intercalate " " ["a", "b", "c", "d"],
       String.intercalate " " ["e", "f", "g", "h"]] ∧
    (["a", "b", "c", "d"].drop (4 - 2) ≠
      (["e", "f", "g", "h"] : List String).take 2) := by
  constructor <;> decide

end GovQnA
